import Mathlib

/-!
Verification of the `ghost` repository (files `shadow.py` and `ghost.py`):
a minimal HTTP/1.1 server (`shadow.py`) and a tracking-beacon handler
(`ghost.py`). The Python source is shallowly embedded: byte strings become
`List Nat`, the two compiled regular expressions become equivalent
deterministic scanners (their greedy character classes are disjoint from the
delimiters that follow them, so no backtracking can change the outcome),
Python `dict` becomes an insertion-ordered association list with
update-in-place semantics, and the asyncio stream becomes a finite byte
buffer together with a flag recording whether the peer has closed its end.
-/

/-- A byte, 0..255. -/
abbrev Byte := Nat

/-- UTF-8 encoding of one character (Python `str.encode`). -/
def utf8EncodeChar (c : Char) : List Byte :=
  if c.toNat < 0x80 then [c.toNat]
  else if c.toNat < 0x800 then [0xC0 + c.toNat / 64, 0x80 + c.toNat % 64]
  else if c.toNat < 0x10000 then
    [0xE0 + c.toNat / 4096, 0x80 + (c.toNat / 64) % 64, 0x80 + c.toNat % 64]
  else
    [0xF0 + c.toNat / 262144, 0x80 + (c.toNat / 4096) % 64, 0x80 + (c.toNat / 64) % 64,
      0x80 + c.toNat % 64]

/-- Python `str.encode()` (UTF-8). -/
def pyEncode (s : String) : List Byte :=
  (s.toList.map utf8EncodeChar).flatten

/-- `bytes.lower()` on one byte: only ASCII A-Z is mapped. -/
def lowerByte (b : Byte) : Byte :=
  if 65 ≤ b ∧ b ≤ 90 then b + 32 else b

/-- Python `bytes.lower()`. -/
def bytesLower (l : List Byte) : List Byte := l.map lowerByte

/-- Python `str.lower()`; the header names serialized by this server are
ASCII, where `Char.toLower` agrees with Python. -/
def strLower (s : String) : String := String.mk (s.toList.map Char.toLower)

/-- Greedy scan: longest prefix whose elements satisfy `p`, plus the rest.
This is the effect of a maximal-munch character class in the regexes below. -/
def pySpan {α : Type} (p : α → Bool) : List α → List α × List α
  | [] => ([], [])
  | b :: rest =>
    if p b then
      let r := pySpan p rest
      (b :: r.1, r.2)
    else ([], b :: rest)

/-- Python `dict` lookup `d.get(k)`: first (and only, for dicts built by
assignment) entry with the given key. -/
def dictGet {K V : Type} [DecidableEq K] (d : List (K × V)) (k : K) : Option V :=
  match d with
  | [] => none
  | (k2, v2) :: rest => if k2 = k then some v2 else dictGet rest k

/-- Python `dict` assignment `d[k] = v`: update in place if the key is
present (keeping its position), else append. -/
def dictSet {K V : Type} [DecidableEq K] (d : List (K × V)) (k : K) (v : V) : List (K × V) :=
  match d with
  | [] => [(k, v)]
  | (k2, v2) :: rest => if k2 = k then (k2, v) :: rest else (k2, v2) :: dictSet rest k v

/-- Python `d | e` / `d |= e`: `d` updated by every entry of `e` in order. -/
def dictUnion {K V : Type} [DecidableEq K] (d e : List (K × V)) : List (K × V) :=
  e.foldl (fun acc p => dictSet acc p.1 p.2) d

/-! ### Character classes of the grammar (shadow.py lines 12-20) -/

/-- `UNRESERVED = A-Za-z0-9 - . _ ~`. -/
def isUnreservedChar (b : Byte) : Bool :=
  (65 ≤ b && b ≤ 90) || (97 ≤ b && b ≤ 122) || (48 ≤ b && b ≤ 57) ||
  b = 45 || b = 46 || b = 95 || b = 126

/-- `SUB_DELIMS = ! $ & ' ( ) * + , ; =`. -/
def isSubDelimChar (b : Byte) : Bool :=
  b = 33 || b = 36 || b = 38 || b = 39 || b = 40 || b = 41 || b = 42 ||
  b = 43 || b = 44 || b = 59 || b = 61

/-- `PCHAR = UNRESERVED + SUB_DELIMS + : @ %`. -/
def isPcharChar (b : Byte) : Bool :=
  isUnreservedChar b || isSubDelimChar b || b = 58 || b = 64 || b = 37

/-- The class `[PCHAR /]` used for the request-target body. -/
def isPathChar (b : Byte) : Bool := isPcharChar b || b = 47

/-- `QUERY_CHARS = PCHAR + / ?`. -/
def isQueryChar (b : Byte) : Bool := isPcharChar b || b = 47 || b = 63

/-- `TOKEN` characters: `! # $ % & ' * + - . ^ _ backtick | ~ 0-9 A-Z a-z`. -/
def isTokenChar (b : Byte) : Bool :=
  b = 33 || b = 35 || b = 36 || b = 37 || b = 38 || b = 39 || b = 42 ||
  b = 43 || b = 45 || b = 46 || b = 94 || b = 95 || b = 96 || b = 124 ||
  b = 126 || (48 ≤ b && b ≤ 57) || (65 ≤ b && b ≤ 90) || (97 ≤ b && b ≤ 122)

/-- `FIELD_VALUE` characters: printable ASCII `\x20-\x7E`. -/
def isFieldValueChar (b : Byte) : Bool := 32 ≤ b && b ≤ 126

/-- Bytes matched by `\s` in a bytes regex: space, tab, LF, VT, FF, CR. -/
def isSpaceByte (b : Byte) : Bool :=
  b = 32 || b = 9 || b = 10 || b = 11 || b = 12 || b = 13

/-- A digit `0-9`, the class `\d` of `VERSION`. -/
def isDigitByte (b : Byte) : Bool := 48 ≤ b && b ≤ 57

/-! ### The two anchored regexes as deterministic scanners

`HTTP_REQUEST_LINE = ^(TOKEN) (REQUEST_TARGET) HTTP/(\d+(?:\.\d+)?)$` and
`HTTP_HEADER_LINE = ^(TOKEN):\s*(FIELD_VALUE)\s*$` (shadow.py lines 22-23).
Each greedy class below is followed by a delimiter that the class cannot
match (space after TOKEN and REQUEST_TARGET, `:` after the header TOKEN,
`.` and end after `\d+`), so the greedy scan is the unique way the pattern
can match and no backtracking is lost. For the header line, `\s*` overlaps
`FIELD_VALUE` only at the space byte 0x20, and the leading `\s*` and the
value class are both greedy, so the captured value is the maximal printable
run after the maximal whitespace run, with only trailing non-printable
whitespace allowed after it. -/

/-- Matches `(\d+(?:\.\d+)?)$`, returning the version group. -/
def matchVersionTail (r : List Byte) : Option (List Byte) :=
  match pySpan isDigitByte r with
  | (d1, r1) =>
    if d1.isEmpty then none
    else if r1.isEmpty then some d1
    else if r1.head? = some 46 then
      match pySpan isDigitByte r1.tail with
      | (d2, r2) =>
        if d2.isEmpty then none
        else if r2.isEmpty then some (d1 ++ 46 :: d2) else none
    else none

/-- Matches `REQUEST_TARGET` = `/[PCHAR /]*(?:\?[QUERY_CHARS]*)?` greedily,
returning the target group and the rest of the input. -/
def matchTarget (r : List Byte) : Option (List Byte × List Byte) :=
  if r.head? = some 47 then
    match pySpan isPathChar r with
    | (p, r1) =>
      if r1.head? = some 63 then
        match pySpan isQueryChar r1.tail with
        | (q, r2) => some (p ++ 63 :: q, r2)
      else some (p, r1)
  else none

/-- Matches ` HTTP/` followed by the version at end of input. -/
def matchAfterTarget (r : List Byte) : Option (List Byte) :=
  if r.head? = some 32 then
    -- [72,84,84,80,47] is b"HTTP/"
    if r.tail.take 5 = [72, 84, 84, 80, 47] then matchVersionTail (r.tail.drop 5) else none
  else none

/-- `HTTP_REQUEST_LINE.match`, returning the three groups
(method, target, version) on success. -/
def matchRequestLine (l : List Byte) : Option (List Byte × List Byte × List Byte) :=
  match pySpan isTokenChar l with
  | (m, r1) =>
    if m.isEmpty then none
    else if r1.head? = some 32 then
      match matchTarget r1.tail with
      | none => none
      | some (t, r2) =>
        match matchAfterTarget r2 with
        | none => none
        | some v => some (m, t, v)
    else none

/-- `HTTP_HEADER_LINE.match`, returning the groups (name, value). -/
def matchHeaderLine (l : List Byte) : Option (List Byte × List Byte) :=
  match pySpan isTokenChar l with
  | (n, r1) =>
    if n.isEmpty then none
    else if r1.head? = some 58 then
      match pySpan isFieldValueChar (pySpan isSpaceByte r1.tail).2 with
      | (v, r2) => if r2.all isSpaceByte then some (n, v) else none
    else none

deriving instance DecidableEq for Except

/-! ### Request accumulator (shadow.py lines 26-78) -/

/-- `Declaration`: the parsed method/target/version triple, all `None`
before the first line is consumed. -/
structure Declaration where
  method : Option (List Byte)
  uri : Option (List Byte)
  version : Option (List Byte)
deriving DecidableEq, Repr

/-- A protocol error (`HTTPException`). -/
structure HTTPException where
  status_code : Nat
  message : String
deriving DecidableEq, Repr

/-- The mutable `Request` object: declaration, header dict
(bytes keys and values), peer source, body. -/
structure Request where
  declaration : Declaration
  headers : List (List Byte × List Byte)
  source : String × Nat
  body : List Byte
deriving DecidableEq, Repr

/-- `Request.__init__`. -/
def Request.new (source : String × Nat) : Request :=
  ⟨⟨none, none, none⟩, [], source, []⟩

/-- One printable form of a byte inside a Python `bytes` repr. -/
def pyByteReprChar (b : Byte) : String :=
  if b = 92 then "\\\\"
  else if b = 39 then "\\\x27"
  else if b = 9 then "\\t"
  else if b = 10 then "\\n"
  else if b = 13 then "\\r"
  else if 32 ≤ b ∧ b ≤ 126 then String.mk [Char.ofNat b]
  else "\\x" ++ String.mk [Nat.digitChar (b / 16), Nat.digitChar (b % 16)]

/-- Python `repr` of a bytes object as interpolated by an f-string
(the quote is always rendered as a single quote here; Python switches to
double quotes only when the data itself holds a single quote and no double
quote, which no error message in the claims exercises). -/
def pyBytesRepr (l : List Byte) : String :=
  "b\x27" ++ String.join (l.map pyByteReprChar) ++ "\x27"

/-- `Request.consume` (shadow.py lines 52-71). The input is one raw line as
delivered by the stream; its final two bytes are sliced off unconditionally
(`line[:-2]`), whether or not they are CRLF. -/
def Request.consume (req : Request) (line : List Byte) : Except HTTPException Request :=
  let processed_line := line.take (line.length - 2)
  match req.declaration.method with
  | none =>
    if processed_line = pyEncode "PRI * HTTP/2.0" then
      .error ⟨505, "Shadow does not support HTTP/2."⟩
    else
      match matchRequestLine processed_line with
      | none => .error ⟨400, "Malformed HTTP declaration was sent."⟩
      | some (m, u, v) => .ok { req with declaration := ⟨some m, some u, some v⟩ }
  | some _ =>
    match matchHeaderLine processed_line with
    | none => .error ⟨400, "Malformed HTTP header line was sent: " ++ pyBytesRepr processed_line⟩
    | some (n, v) => .ok { req with headers := dictSet req.headers (bytesLower n) v }

/-! ### Response serializer (shadow.py lines 9, 32-36, 84-100) -/

/-- `__version__ = "shdw/1.1.1"`. -/
def shadowVersion : String := "shdw/1.1.1"

/-- The `Response` dataclass: status code, body bytes, header dict
(string keys and values, insertion-ordered). -/
structure Response where
  status_code : Nat
  body : List Byte
  headers : List (String × String)
deriving DecidableEq, Repr

namespace Shadow

/-- `Shadow.error`: the plain-text error response. -/
def error (status_code : Nat) (message : String) : Response :=
  ⟨status_code, pyEncode message, [("content-type", "text/plain"), ("connection", "close")]⟩

/-- The header dict at serialization time:
`response.headers | {"content-length": str(len(body)), "server": __version__}`. -/
def mergedHeaders (r : Response) : List (String × String) :=
  dictUnion r.headers [("content-length", toString r.body.length), ("server", shadowVersion)]

/-- One serialized header line: `f"{name.lower()}: {value}".encode()`. -/
def headerLine (p : String × String) : List Byte :=
  pyEncode (strLower p.1 ++ ": " ++ p.2)

/-- The list passed to `b"\r\n".join(...)`: status line, header lines,
then `b"\r\n" + body`. -/
def responseParts (r : Response) : List (List Byte) :=
  [pyEncode ("HTTP/1.1 " ++ toString r.status_code)] ++
    (mergedHeaders r).map headerLine ++ [[13, 10] ++ r.body]

/-- `b"\r\n".join(parts)`. -/
def joinCRLF (parts : List (List Byte)) : List Byte :=
  (parts.intersperse [13, 10]).flatten

/-- `Shadow.dump_response`. -/
def dump_response (r : Response) : List Byte :=
  joinCRLF (responseParts r)

end Shadow

/-! ### Connection state machine (shadow.py lines 102-156)

The socket is modelled as the finite sequence of bytes the peer will have
sent, plus a flag saying whether the peer closed its write side afterwards.
`asyncio`'s `async for item in read_stream` yields `readline()` results:
chunks up to and including a LF byte; when the stream is closed, a final
chunk without LF is delivered and then iteration ends; when the stream is
still open and no LF is buffered, the coroutine blocks (`wouldBlock`
below). `at_eof()` holds exactly when the buffer is empty and the peer has
closed. -/

/-- The read side of one accepted socket. -/
structure ByteStream where
  data : List Byte
  closed : Bool
deriving DecidableEq, Repr

/-- `StreamReader.at_eof()`. -/
def atEof (s : ByteStream) : Bool := s.data.isEmpty && s.closed

/-- Split a buffer into its LF-terminated lines plus the trailing bytes
that contain no LF (`cur` is the current line accumulated in reverse). -/
def pyLinesAux (cur : List Byte) : List Byte → List (List Byte) × List Byte
  | [] => ([], cur.reverse)
  | b :: rest =>
    if b = 10 then
      let r := pyLinesAux [] rest
      ((cur.reverse ++ [10]) :: r.1, r.2)
    else pyLinesAux (b :: cur) rest

/-- Result of the header-feeding `async for` loop (lines 112-116). -/
inductive FeedOut
  | blankLine (req : Request) (rest : List (List Byte))
  | failed (e : HTTPException) (rest : List (List Byte))
  | exhausted (req : Request)
deriving DecidableEq, Repr

/-- Feed lines into the accumulator until a bare CRLF, a raised
`HTTPException`, or the end of the delivered lines. -/
def feedList (req : Request) : List (List Byte) → FeedOut
  | [] => .exhausted req
  | line :: rest =>
    if line = [13, 10] then .blankLine req rest
    else
      match req.consume line with
      | .ok req2 => feedList req2 rest
      | .error e => .failed e rest

/-- Line 124: `keepalive = request.headers.get(b"connection") == b"keep-alive"`. -/
def keepaliveDecision (headers : List (List Byte × List Byte)) : Bool :=
  dictGet headers (pyEncode "connection") = some (pyEncode "keep-alive")

/-- Models `str.isnumeric` restricted to printable-ASCII input, the only
form a stored header value can take (header values are matched by
`FIELD_VALUE = [\x20-\x7E]`, see `headerValuesPrintable`): among ASCII
characters exactly the digits 0-9 are numeric, and `isnumeric` requires a
nonempty string. -/
def pyIsnumericAscii (v : List Byte) : Bool := !v.isEmpty && v.all isDigitByte

/-- `int()` applied to an all-digit byte string. -/
def pyInt (v : List Byte) : Nat := v.foldl (fun a b => a * 10 + (b - 48)) 0

/-- Lines 127-131: fetch and validate the `content-length` header. -/
def contentLengthCheck (headers : List (List Byte × List Byte)) :
    Except HTTPException (Option Nat) :=
  match dictGet headers (pyEncode "content-length") with
  | none => .ok none
  | some v =>
    if !pyIsnumericAscii v then .error ⟨400, "Invalid content length provided."⟩
    else .ok (some (pyInt v))

/-- `await read_stream.read(n)` (line 132): up to `n` bytes from the
buffer; `none` when the coroutine would block (empty buffer, peer still
connected). `read(0)` returns immediately; at EOF the empty string is
returned. -/
def readBody (s : ByteStream) (n : Nat) : Option (List Byte × ByteStream) :=
  if n = 0 then some ([], s)
  else if s.data.isEmpty then
    if s.closed then some ([], s) else none
  else some (s.data.take n, ⟨s.data.drop n, s.closed⟩)

/-- Line 137: `response.headers |= {"connection": "keep-alive" if keepalive
else "close"}` — the state machine's decision overwrites the handler's. -/
def respWithConnection (r : Response) (keepalive : Bool) : Response :=
  { r with headers := dictSet r.headers "connection" (if keepalive then "keep-alive" else "close") }

/-- Outcome of one pass through the body of the `while` loop. -/
inductive IterStep
  | exitEOF (s : ByteStream)
  | exitClose (written : List Byte) (req : Request) (s : ByteStream)
  | nextRound (written : List Byte) (req : Request) (s : ByteStream)
  | protoErr (e : HTTPException) (s : ByteStream)
  | wouldBlock
deriving DecidableEq, Repr

/-- The response write for a dispatched request (lines 135-138); a handler
returning `None` writes nothing. -/
def dispatchPhase (handler : Request → Option Response) (req : Request)
    (s : ByteStream) (keepalive : Bool) : IterStep :=
  let written :=
    match handler req with
    | none => []
    | some resp => Shadow.dump_response (respWithConnection resp keepalive)
  if keepalive then .nextRound written req s else .exitClose written req s

/-- One iteration of the connection loop (shadow.py lines 108-145). -/
def handleIteration (handler : Request → Option Response) (source : String × Nat)
    (s : ByteStream) : IterStep :=
  let pr := pyLinesAux [] s.data
  -- when the peer has closed, the trailing LF-less bytes are delivered as
  -- a final chunk by readline(); otherwise they stay buffered
  let withLeft := s.closed && !pr.2.isEmpty
  let lines := if withLeft then pr.1 ++ [pr.2] else pr.1
  let remaining : List (List Byte) → List Byte :=
    fun rest => rest.flatten ++ (if withLeft then [] else pr.2)
  match feedList (Request.new source) lines with
  | .exhausted _ =>
    -- all delivered lines consumed without a blank line: at EOF the
    -- `async for` ends and `at_eof()` breaks the loop; otherwise the next
    -- readline() blocks
    if s.closed then .exitEOF ⟨[], true⟩ else .wouldBlock
  | .failed e rest => .protoErr e ⟨remaining rest, s.closed⟩
  | .blankLine req rest =>
    let s2 : ByteStream := ⟨remaining rest, s.closed⟩
    if atEof s2 then .exitEOF s2
    else
      let keepalive := keepaliveDecision req.headers
      match contentLengthCheck req.headers with
      | .error e => .protoErr e s2
      | .ok none => dispatchPhase handler req s2 keepalive
      | .ok (some n) =>
        match readBody s2 n with
        | none => .wouldBlock
        | some (body, s3) => dispatchPhase handler { req with body := body } s3 keepalive

/-- How the `while` loop of `handle_connection` can end. -/
inductive LoopRes
  | normalExit (written : List Byte) (dispatched : List Request)
  | httpErr (e : HTTPException) (written : List Byte) (dispatched : List Request)
  | stalled
  | outOfFuel
deriving DecidableEq, Repr

/-- The `while read_stream:` loop, accumulating written bytes and the
requests handed to the handler; `fuel` bounds the number of keep-alive
rounds (each round consumes at least one line, so any concrete run
terminates within `fuel` = number of lines). -/
def connectionLoop (handler : Request → Option Response) (source : String × Nat) :
    Nat → ByteStream → List Byte → List Request → LoopRes
  | 0, _, _, _ => .outOfFuel
  | fuel + 1, s, w, d =>
    match handleIteration handler source s with
    | .exitEOF _ => .normalExit w d
    | .exitClose w2 req _ => .normalExit (w ++ w2) (d ++ [req])
    | .protoErr e _ => .httpErr e w d
    | .wouldBlock => .stalled
    | .nextRound w2 req s2 => connectionLoop handler source fuel s2 (w ++ w2) (d ++ [req])

/-- The three ways control can leave the `try` block of
`handle_connection`. -/
inductive LoopOutcome
  | completed
  | raisedHTTP (e : HTTPException)
  | raisedReset
deriving DecidableEq, Repr

/-- Whether the teardown code at lines 155-156 (`write_stream.close()` /
`wait_closed()`) runs, per exit path of lines 147-156: the `HTTPException`
handler writes the error response and falls through to the cleanup; the
`ConnectionResetError` handler executes `return`, skipping it. -/
def teardownRuns : LoopOutcome → Bool
  | .completed => true
  | .raisedHTTP _ => true
  | .raisedReset => false

/-- The observable result of `handle_connection`. -/
structure ConnTrace where
  written : List Byte
  dispatched : List Request
  torndown : Bool
deriving DecidableEq, Repr

/-- `handle_connection` end to end. `resetEvent` injects a
`ConnectionResetError` raised by the transport (modelled as striking before
any bytes are delivered); `none` is returned when the coroutine never
returns (blocked on reading) or the fuel is too small. -/
def runConnection (handler : Request → Option Response) (source : String × Nat)
    (fuel : Nat) (s : ByteStream) (resetEvent : Bool) : Option ConnTrace :=
  if resetEvent then some ⟨[], [], teardownRuns .raisedReset⟩
  else
    match connectionLoop handler source fuel s [] [] with
    | .normalExit w d => some ⟨w, d, teardownRuns .completed⟩
    | .httpErr e w d =>
      some ⟨w ++ Shadow.dump_response (Shadow.error e.status_code e.message), d,
        teardownRuns (.raisedHTTP e)⟩
    | _ => none

/-- A concrete handler used by the closed scenario theorems: echoes the
request target as the body. -/
def echoHandler (req : Request) : Option Response :=
  some ⟨200, (req.declaration.uri).getD [], []⟩

/-! ### The Ghost beacon handler (ghost.py lines 14, 97-158)

The persistence layer is a single `hits` table, modelled as the list of its
rows in insertion order; `CREATE TABLE IF NOT EXISTS` is idempotent and
adds no rows. `time.time()` is passed in as an abstract timestamp. The
response bodies of the `/` and `/stats` branches (the static page and the
aggregation JSON) are taken as parameters: both branches are unreachable,
because `request.declaration.uri` holds `bytes` while the literals compared
against are `str` (see `pyEqBytesStr`). -/

/-- Whether a byte is a UTF-8 continuation byte `0x80-0xBF`. -/
def isContByte (b : Byte) : Bool := 128 ≤ b && b ≤ 191

/-- Python `bytes.decode("utf-8")`: strict UTF-8, rejecting overlong forms,
surrogates and out-of-range code points; `none` models the
`UnicodeDecodeError` it raises. -/
def utf8Decode : List Byte → Option (List Char)
  | [] => some []
  | b :: rest =>
    if b < 128 then (utf8Decode rest).map (Char.ofNat b :: ·)
    else if 194 ≤ b && b ≤ 223 then
      match rest with
      | b2 :: rest2 =>
        if isContByte b2 then
          (utf8Decode rest2).map (Char.ofNat ((b - 192) * 64 + (b2 - 128)) :: ·)
        else none
      | [] => none
    else if 224 ≤ b && b ≤ 239 then
      match rest with
      | b2 :: b3 :: rest3 =>
        let okB2 :=
          if b = 224 then 160 ≤ b2 && b2 ≤ 191
          else if b = 237 then 128 ≤ b2 && b2 ≤ 159
          else isContByte b2
        if okB2 && isContByte b3 then
          (utf8Decode rest3).map
            (Char.ofNat ((b - 224) * 4096 + (b2 - 128) * 64 + (b3 - 128)) :: ·)
        else none
      | _ => none
    else if 240 ≤ b && b ≤ 244 then
      match rest with
      | b2 :: b3 :: b4 :: rest4 =>
        let okB2 :=
          if b = 240 then 144 ≤ b2 && b2 ≤ 191
          else if b = 244 then 128 ≤ b2 && b2 ≤ 143
          else isContByte b2
        if okB2 && isContByte b3 && isContByte b4 then
          (utf8Decode rest4).map
            (Char.ofNat ((b - 240) * 262144 + (b2 - 128) * 4096 + (b3 - 128) * 64 + (b4 - 128)) :: ·)
        else none
      | _ => none
    else none

/-- Scheme characters accepted by `urllib.parse`: letters, digits, `+ - .`. -/
def isSchemeChar (c : Char) : Bool :=
  c.isAlpha || c.isDigit || c = '+' || c = '-' || c = '.'

/-- CPython `urlsplit` input cleaning: strip leading/trailing
C0-controls-or-space, then remove every tab, CR and LF. -/
def urlparseClean (l : List Char) : List Char :=
  (((l.dropWhile (fun c => c.toNat ≤ 32)).reverse.dropWhile
      (fun c => c.toNat ≤ 32)).reverse).filter
    (fun c => !(c = '\t' || c = '\r' || c = '\n'))

/-- Drop a leading `scheme:` when the part before the first colon is a
nonempty run of scheme characters starting with a letter. -/
def splitScheme (l : List Char) : List Char :=
  match pySpan (fun c => c ≠ ':') l with
  | (before, ':' :: after) =>
    match before with
    | [] => l
    | c0 :: _ => if c0.isAlpha && before.all isSchemeChar then after else l
  | _ => l

/-- After the scheme: when the input starts with `//`, the netloc extends
to the first of `/ ? #`; the rest (starting with that delimiter) is the
path-and-after. -/
def netlocSplit (l : List Char) : List Char × List Char :=
  match l with
  | '/' :: '/' :: rest => pySpan (fun c => !(c = '/' || c = '?' || c = '#')) rest
  | _ => ([], l)

/-- The raw netloc component cut out by `urlsplit` before its bracket
validation runs. -/
def urlsplitNetlocRaw (l : List Char) : List Char :=
  (netlocSplit (splitScheme (urlparseClean l))).1

/-- CPython `urlsplit`'s eager bracket validation of the netloc: a `[`
without a `]` (or a `]` without a `[`) raises
`ValueError("Invalid IPv6 URL")` in every CPython version; for a matched
pair, CPython 3.11+ additionally validates the bracketed host (raising
unless it is an IPv6 or IPvFuture address) while earlier versions accept
any matched pair. The matched-pair verdict is version-dependent and is
abstracted as `bracketOk`; every theorem below quantifies over it and
restricts itself to bracket-free netlocs, on which all versions agree.
`none` models the raised `ValueError`. -/
def checkNetlocBrackets (bracketOk : List Char → Bool) (nl : List Char) :
    Option (List Char) :=
  if nl.contains '[' || nl.contains ']' then
    if nl.contains '[' && nl.contains ']' then
      if bracketOk nl then some nl else none
    else none
  else some nl

/-- `urllib.parse.urlparse(...).netloc` (the only URL fields Ghost reads
are `netloc` and `path`), with `urlsplit`'s eager `ValueError` on invalid
brackets modelled as `none`. -/
def urlparseNetloc (bracketOk : List Char → Bool) (l : List Char) : Option (List Char) :=
  checkNetlocBrackets bracketOk (urlsplitNetlocRaw l)

/-- `urllib.parse.urlparse(...).path`: what remains after the netloc, with
the fragment then the query stripped. -/
def urlparsePath (l : List Char) : List Char :=
  (pySpan (fun c => c ≠ '?')
    ((pySpan (fun c => c ≠ '#')
      (netlocSplit (splitScheme (urlparseClean l))).2).1)).1

/-- The rows of the `hits` table: `(domain, path, time)`. -/
structure GhostDB where
  hits : List (String × String × Nat)
deriving DecidableEq, Repr

/-- `BLANK_RESPONSE = Response(204, b"", {})`. -/
def BLANK_RESPONSE : Response := ⟨204, [], []⟩

/-- In the source, `request.declaration.uri` holds `bytes` (a regex group
of a bytes pattern) while the routing literals `"/"` and `"/stats"` are
`str`; Python equality between `bytes` and `str` (or between `None` and
`str`) is always `False`, so both routing branches are dead code. -/
def pyEqBytesStr (_ : Option (List Byte)) (_ : String) : Bool := false

namespace Ghost

/-- `Ghost.on_request` (ghost.py lines 117-158). `indexHtml` and
`statsBody` stand for the static page and the `/stats` aggregation output,
`argv` for `sys.argv` (program name first, then the domains), `now` for
`time.time()`, `bracketOk` for the version-dependent matched-bracket host
validation of `urlsplit` (see `checkNetlocBrackets`). `none` models an
exception escaping the handler: `UnicodeDecodeError` from
`request.body.decode`, or the `ValueError` that `urlparse` raises on a
netloc with invalid brackets. -/
def on_request (bracketOk : List Char → Bool) (indexHtml statsBody : List Byte)
    (argv : List String) (now : Nat) (db : GhostDB) (req : Request) :
    Option (Response × GhostDB) :=
  if pyEqBytesStr req.declaration.uri "/" then
    some (⟨200, indexHtml, [("content-type", "text/html")]⟩, db)
  else if pyEqBytesStr req.declaration.uri "/stats" then
    some (⟨200, statsBody, [("content-type", "application/json")]⟩, db)
  else
    match utf8Decode req.body with
    | none => none
    | some chars =>
      match urlparseNetloc bracketOk chars with
      | none => none
      | some nl =>
        let netloc := String.mk nl
        let path := String.mk (urlparsePath chars)
        if netloc ∉ argv then some (BLANK_RESPONSE, db)
        else some (⟨204, [], []⟩, ⟨db.hits ++ [(netloc, path, now)]⟩)

end Ghost

/-! ### Helper lemmas -/

theorem pySpan_nil {α : Type} (p : α → Bool) : pySpan p [] = ([], []) := rfl

theorem pySpan_all {α : Type} {p : α → Bool} {l : List α} (h : l.all p = true) :
    pySpan p l = (l, []) := by
  induction l with
  | nil => rfl
  | cons a l ih =>
    simp only [List.all_cons, Bool.and_eq_true] at h
    simp [pySpan, h.1, ih h.2]

theorem pySpan_append {α : Type} {p : α → Bool} {l : List α} {x : α} {rest : List α}
    (h : l.all p = true) (hx : p x = false) :
    pySpan p (l ++ x :: rest) = (l, x :: rest) := by
  induction l with
  | nil => simp [pySpan, hx]
  | cons a l ih =>
    simp only [List.all_cons, Bool.and_eq_true] at h
    simp [pySpan, h.1, ih h.2]

theorem pySpan_fst_all {α : Type} (p : α → Bool) (l : List α) :
    (pySpan p l).1.all p = true := by
  induction l with
  | nil => rfl
  | cons a l ih => by_cases h : p a <;> simp [pySpan, h, ih]

theorem take_append_len {α : Type} (l t : List α) : (l ++ t).take l.length = l := by
  induction l with
  | nil => rfl
  | cons a l ih => simp [List.take, ih]

theorem drop_append_len {α : Type} (l t : List α) : (l ++ t).drop l.length = t := by
  induction l with
  | nil => rfl
  | cons a l ih => simp [List.drop, ih]

/-- Effect of `line[:-2]` on a CRLF-terminated line. -/
theorem take_crlf (l : List Byte) :
    (l ++ [13, 10]).take ((l ++ [13, 10]).length - 2) = l := by
  have h : (l ++ [13, 10]).length - 2 = l.length := by simp
  rw [h, take_append_len]

theorem dictGet_dictSet_self {K V : Type} [DecidableEq K] (d : List (K × V)) (k : K) (v : V) :
    dictGet (dictSet d k v) k = some v := by
  induction d with
  | nil => simp [dictSet, dictGet]
  | cons p rest ih =>
    obtain ⟨k2, v2⟩ := p
    by_cases h : k2 = k <;> simp [dictSet, dictGet, h, ih]

theorem dictGet_dictSet_ne {K V : Type} [DecidableEq K] (d : List (K × V)) (k k2 : K) (v : V)
    (h : k2 ≠ k) : dictGet (dictSet d k2 v) k = dictGet d k := by
  induction d with
  | nil => simp [dictSet, dictGet, h]
  | cons p rest ih =>
    obtain ⟨k3, v3⟩ := p
    by_cases h2 : k3 = k2 <;> by_cases h3 : k3 = k <;>
      simp_all [dictSet, dictGet]

theorem mem_of_dictGet {K V : Type} [DecidableEq K] {d : List (K × V)} {k : K} {v : V}
    (h : dictGet d k = some v) : (k, v) ∈ d := by
  induction d with
  | nil => simp [dictGet] at h
  | cons p rest ih =>
    obtain ⟨k2, v2⟩ := p
    by_cases h2 : k2 = k
    · subst h2
      simp [dictGet] at h
      simp [h]
    · simp [dictGet, h2] at h
      exact List.mem_cons_of_mem _ (ih h)

/-- `d | {k1: v1, k2: v2}` is two successive assignments. -/
theorem dictUnion_two {K V : Type} [DecidableEq K] (d : List (K × V)) (k1 k2 : K) (v1 v2 : V) :
    dictUnion d [(k1, v1), (k2, v2)] = dictSet (dictSet d k1 v1) k2 v2 := rfl

/-- Values captured by the header-line pattern are printable ASCII: the
value group is a scan of `FIELD_VALUE` characters. -/
theorem matchHeaderLine_value_printable {l n v : List Byte}
    (h : matchHeaderLine l = some (n, v)) : v.all isFieldValueChar = true := by
  rcases hs : pySpan isTokenChar l with ⟨n1, r1⟩
  rcases hs2 : pySpan isFieldValueChar (pySpan isSpaceByte r1.tail).2 with ⟨v1, r2⟩
  have hall := pySpan_fst_all isFieldValueChar (pySpan isSpaceByte r1.tail).2
  rw [hs2] at hall
  simp only [matchHeaderLine, hs, hs2] at h
  split_ifs at h with h1 h2 h3
  obtain ⟨rfl, rfl⟩ : n1 = n ∧ v1 = v := by simpa using h
  exact hall

/-! ### Spec-side grammar predicates (spec §4.1) -/

/-- A legal request target: a path beginning with `/` over the pchar/`/`
class, optionally followed by `?` and a query over the query class. -/
inductive LegalTarget : List Byte → Prop
  | noQuery (p : List Byte) (h1 : p.head? = some 47) (h2 : p.all isPathChar = true) :
      LegalTarget p
  | withQuery (p q : List Byte) (h1 : p.head? = some 47) (h2 : p.all isPathChar = true)
      (h3 : q.all isQueryChar = true) : LegalTarget (p ++ 63 :: q)

/-- A legal version: a one-or-two-part numeric (`1` or `1.1`). -/
inductive LegalVersion : List Byte → Prop
  | single (d : List Byte) (h1 : d ≠ []) (h2 : d.all isDigitByte = true) : LegalVersion d
  | dotted (d1 d2 : List Byte) (h1 : d1 ≠ []) (h2 : d1.all isDigitByte = true)
      (h3 : d2 ≠ []) (h4 : d2.all isDigitByte = true) : LegalVersion (d1 ++ 46 :: d2)

/-- The spec's "non-negative base-10 integer literal". -/
def nonNegIntLiteral (v : List Byte) : Prop :=
  v ≠ [] ∧ v.all isDigitByte = true

instance (v : List Byte) : Decidable (nonNegIntLiteral v) := by
  unfold nonNegIntLiteral
  infer_instance

theorem isEmpty_false_of_ne {α : Type} {l : List α} (h : l ≠ []) : l.isEmpty = false := by
  cases l with
  | nil => exact absurd rfl h
  | cons a l => rfl

theorem matchVersionTail_wf {v : List Byte} (hv : LegalVersion v) :
    matchVersionTail v = some v := by
  cases hv with
  | single d h1 h2 =>
    simp [matchVersionTail, pySpan_all h2, isEmpty_false_of_ne h1]
  | dotted d1 d2 h1 h2 h3 h4 =>
    have hsp : pySpan isDigitByte (d1 ++ 46 :: d2) = (d1, 46 :: d2) :=
      pySpan_append h2 (by decide)
    simp [matchVersionTail, hsp, isEmpty_false_of_ne h1, isEmpty_false_of_ne h3,
      pySpan_all h4]

theorem eq_cons_of_head47 : ∀ {p : List Byte}, p.head? = some 47 → ∃ p2, p = 47 :: p2
  | [], h => by simp at h
  | a :: p2, h => ⟨p2, by simp at h; subst h; rfl⟩

theorem matchTarget_wf {t : List Byte} (ht : LegalTarget t) (rest : List Byte) :
    matchTarget (t ++ 32 :: rest) = some (t, 32 :: rest) := by
  induction ht with
  | noQuery p h1 h2 =>
    obtain ⟨p2, rfl⟩ := eq_cons_of_head47 h1
    have hsp : pySpan isPathChar ((47 :: p2) ++ 32 :: rest) = (47 :: p2, 32 :: rest) :=
      pySpan_append h2 (by decide)
    simp only [List.cons_append, List.nil_append] at hsp ⊢
    simp [matchTarget, hsp]
  | withQuery p q h1 h2 h3 =>
    obtain ⟨p2, rfl⟩ := eq_cons_of_head47 h1
    have hsp : pySpan isPathChar ((47 :: p2) ++ 63 :: (q ++ 32 :: rest)) =
        (47 :: p2, 63 :: (q ++ 32 :: rest)) := pySpan_append h2 (by decide)
    have hsq : pySpan isQueryChar (q ++ 32 :: rest) = (q, 32 :: rest) :=
      pySpan_append h3 (by decide)
    simp only [List.cons_append, List.nil_append, List.append_assoc] at hsp hsq ⊢
    simp [matchTarget, hsp, hsq]

theorem matchAfterTarget_wf {v : List Byte} (hv : LegalVersion v) :
    matchAfterTarget (32 :: ([72, 84, 84, 80, 47] ++ v)) = some v := by
  have h1 : ([72, 84, 84, 80, 47] ++ v).take 5 = [72, 84, 84, 80, 47] :=
    take_append_len [72, 84, 84, 80, 47] v
  have h2 : ([72, 84, 84, 80, 47] ++ v).drop 5 = v :=
    drop_append_len [72, 84, 84, 80, 47] v
  have h3 := matchVersionTail_wf hv
  simp only [List.cons_append, List.nil_append] at h1 h2 ⊢
  simp [matchAfterTarget, h1, h2, h3]

theorem matchRequestLine_wf {m t v : List Byte} (hm1 : m ≠ [])
    (hm2 : m.all isTokenChar = true) (ht : LegalTarget t) (hv : LegalVersion v) :
    matchRequestLine (m ++ 32 :: (t ++ 32 :: ([72, 84, 84, 80, 47] ++ v))) =
      some (m, t, v) := by
  have hsp : pySpan isTokenChar (m ++ 32 :: (t ++ 32 :: ([72, 84, 84, 80, 47] ++ v))) =
      (m, 32 :: (t ++ 32 :: ([72, 84, 84, 80, 47] ++ v))) := pySpan_append hm2 (by decide)
  have htg := matchTarget_wf ht ([72, 84, 84, 80, 47] ++ v)
  have hat := matchAfterTarget_wf hv
  simp only [List.cons_append, List.nil_append] at hsp htg hat ⊢
  simp [matchRequestLine, hsp, isEmpty_false_of_ne hm1, htg, hat]

theorem printable_not_space {b : Nat} (h : isFieldValueChar b = true) (h2 : b ≠ 32) :
    isSpaceByte b = false := by
  have h3 : 32 ≤ b ∧ b ≤ 126 := by simpa [isFieldValueChar] using h
  have h9 : ¬(b = 9) := by omega
  have h10 : ¬(b = 10) := by omega
  have h11 : ¬(b = 11) := by omega
  have h12 : ¬(b = 12) := by omega
  have h13 : ¬(b = 13) := by omega
  simp [isSpaceByte, h2, h9, h10, h11, h12, h13]

theorem matchHeaderLine_wf {n w1 v w2 : List Byte} (hn1 : n ≠ [])
    (hn2 : n.all isTokenChar = true) (hw1 : w1.all isSpaceByte = true)
    (hv : v.all isFieldValueChar = true) (hvh : v.head? ≠ some 32)
    (hw2 : w2.all (fun b => isSpaceByte b && !isFieldValueChar b) = true) :
    matchHeaderLine (n ++ 58 :: (w1 ++ (v ++ w2))) = some (n, v) := by
  have hsp : pySpan isTokenChar (n ++ 58 :: (w1 ++ (v ++ w2))) =
      (n, 58 :: (w1 ++ (v ++ w2))) := pySpan_append hn2 (by decide)
  have hw2s : w2.all isSpaceByte = true := by
    simp only [List.all_eq_true, Bool.and_eq_true] at hw2
    simp only [List.all_eq_true]
    intro b hb
    exact (hw2 b hb).1
  cases v with
  | nil =>
    have hws : (w1 ++ w2).all isSpaceByte = true := by
      simp only [List.all_append, Bool.and_eq_true]
      exact ⟨hw1, hw2s⟩
    have hsp2 := pySpan_all hws
    simp only [List.nil_append] at hsp ⊢
    simp [matchHeaderLine, hsp, isEmpty_false_of_ne hn1, hsp2, pySpan_nil, hw2s]
  | cons vh vt =>
    have hvh2 : vh ≠ 32 := by simpa using hvh
    have hvall := List.all_eq_true.mp hv
    have hvhS : isSpaceByte vh = false :=
      printable_not_space (hvall vh (by simp)) hvh2
    have hsp2 : pySpan isSpaceByte (w1 ++ vh :: (vt ++ w2)) = (w1, vh :: (vt ++ w2)) :=
      pySpan_append hw1 hvhS
    cases w2 with
    | nil =>
      have hspv : pySpan isFieldValueChar (vh :: vt) = (vh :: vt, []) := pySpan_all hv
      simp only [List.cons_append, List.append_nil, List.append_assoc] at hsp hsp2 ⊢
      simp [matchHeaderLine, hsp, isEmpty_false_of_ne hn1, hsp2, hspv]
    | cons w2h w2t =>
      have hw2h : isFieldValueChar w2h = false := by
        simp only [List.all_eq_true, Bool.and_eq_true] at hw2
        have h5 := (hw2 w2h (by simp)).2
        simpa using h5
      have hspv : pySpan isFieldValueChar ((vh :: vt) ++ w2h :: w2t) =
          (vh :: vt, w2h :: w2t) := pySpan_append hv hw2h
      simp only [List.cons_append, List.append_assoc] at hsp hsp2 hspv ⊢
      simp [matchHeaderLine, hsp, isEmpty_false_of_ne hn1, hsp2, hspv, hw2s]

theorem isnumeric_iff_literal (v : List Byte) :
    pyIsnumericAscii v = true ↔ nonNegIntLiteral v := by
  simp [pyIsnumericAscii, nonNegIntLiteral]

/-! ### Claim theorems -/

/-- **C7**: for every well-formed request line `METHOD TARGET HTTP/VERSION`
— METHOD a nonempty token, TARGET a legal path (optionally with query) per
the grammar, VERSION a one-or-two-part numeric — consuming that line (CRLF
included) as the first line populates the Declaration with exactly that
method, that target string, and that version, raising no error. -/
theorem c7_request_line (source : String × Nat) (m t v : List Byte) (hm1 : m ≠ [])
    (hm2 : m.all isTokenChar = true) (ht : LegalTarget t) (hv : LegalVersion v) :
    Request.consume (Request.new source)
        ((m ++ 32 :: (t ++ 32 :: ([72, 84, 84, 80, 47] ++ v))) ++ [13, 10]) =
      .ok { Request.new source with declaration := ⟨some m, some t, some v⟩ } := by
  have hmatch := matchRequestLine_wf hm1 hm2 ht hv
  have hne : m ++ 32 :: (t ++ 32 :: ([72, 84, 84, 80, 47] ++ v)) ≠
      pyEncode "PRI * HTTP/2.0" := by
    intro he
    rw [he, (by decide : matchRequestLine (pyEncode "PRI * HTTP/2.0") = none)] at hmatch
    cases hmatch
  simp only [Request.consume, take_crlf, Request.new]
  rw [if_neg hne, hmatch]

/-- C7 witness: `GET /a?b=c HTTP/1.1`. -/
theorem c7_request_line_witness :
    Request.consume (Request.new ("127.0.0.1", 80)) (pyEncode "GET /a?b=c HTTP/1.1\r\n") =
      .ok { Request.new ("127.0.0.1", 80) with
            declaration :=
              ⟨some (pyEncode "GET"), some (pyEncode "/a?b=c"), some (pyEncode "1.1")⟩ } := by
  have ht : LegalTarget (pyEncode "/a?b=c") := by
    rw [(by decide : pyEncode "/a?b=c" = pyEncode "/a" ++ 63 :: pyEncode "b=c")]
    exact LegalTarget.withQuery (pyEncode "/a") (pyEncode "b=c")
      (by decide) (by decide) (by decide)
  have hv : LegalVersion (pyEncode "1.1") := by
    rw [(by decide : pyEncode "1.1" = [49] ++ 46 :: [49])]
    exact LegalVersion.dotted [49] [49] (by decide) (by decide) (by decide) (by decide)
  have h := c7_request_line ("127.0.0.1", 80) (pyEncode "GET") (pyEncode "/a?b=c")
    (pyEncode "1.1") (by decide) (by decide) ht hv
  rw [show pyEncode "GET /a?b=c HTTP/1.1\r\n" =
      (pyEncode "GET" ++ 32 :: (pyEncode "/a?b=c" ++ 32 ::
        ([72, 84, 84, 80, 47] ++ pyEncode "1.1"))) ++ [13, 10] from by decide]
  exact h

/-- **C9**: `consume` slices the final two bytes off its input
unconditionally (`line[:-2]`) before any matching: its result depends only
on the input minus its last two bytes; concretely, the non-CRLF-terminated
line `GET / HTTP/1.1` loses its real trailing bytes `.1` and parses with
version `1`. -/
theorem c9_truncation :
    (∀ (req : Request) (l1 l2 : List Byte),
        l1.take (l1.length - 2) = l2.take (l2.length - 2) →
        req.consume l1 = req.consume l2)
    ∧ ∀ source : String × Nat,
        Request.consume (Request.new source) (pyEncode "GET / HTTP/1.1") =
          .ok { Request.new source with
                declaration := ⟨some (pyEncode "GET"), some (pyEncode "/"),
                  some (pyEncode "1")⟩ } := by
  constructor
  · intro req l1 l2 h
    unfold Request.consume
    rw [h]
  · intro source
    rfl

/-- C9 witness: two lines sharing everything but their last two bytes
(a CRLF pair versus two content bytes) are consumed identically. -/
theorem c9_truncation_witness :
    Request.consume (Request.new ("", 0)) (pyEncode "GET / HTTP/1.1\r\n") =
      Request.consume (Request.new ("", 0)) (pyEncode "GET / HTTP/1.1AB") :=
  c9_truncation.1 (Request.new ("", 0)) (pyEncode "GET / HTTP/1.1\r\n")
    (pyEncode "GET / HTTP/1.1AB") (by decide)

/-- **C5**: a first line of exactly `PRI * HTTP/2.0` raises the 505
unsupported-version error before the generic request-line match is
attempted (that pattern does not even match the preface, so the order is
observable: the error is 505, not 400), and the connection is written a
response with status 505 whose body is the error message, then torn
down. -/
theorem c5_http2_preface :
    Request.consume (Request.new ("", 0)) (pyEncode "PRI * HTTP/2.0\r\n") =
      .error ⟨505, "Shadow does not support HTTP/2."⟩
    ∧ matchRequestLine (pyEncode "PRI * HTTP/2.0") = none
    ∧ runConnection echoHandler ("", 0) 1 ⟨pyEncode "PRI * HTTP/2.0\r\n", true⟩ false =
        some ⟨Shadow.dump_response (Shadow.error 505 "Shadow does not support HTTP/2."),
          [], true⟩
    ∧ (Shadow.error 505 "Shadow does not support HTTP/2.").status_code = 505
    ∧ (Shadow.error 505 "Shadow does not support HTTP/2.").body =
        pyEncode "Shadow does not support HTTP/2." := by
  refine ⟨by decide, by decide, by decide, rfl, rfl⟩

/-- **C6**: with a `content-length` header stored (its value is printable
ASCII by construction, see `matchHeaderLine_value_printable`), the
connection loop raises `400 "Invalid content length provided."` exactly
when the value is not a non-negative base-10 integer literal; a valid
value passes the check with its numeric value, and the body read returns
a prefix of the buffered stream of that length. -/
theorem c6_content_length (hdrs : List (List Byte × List Byte)) (v : List Byte)
    (hget : dictGet hdrs (pyEncode "content-length") = some v)
    (hprint : v.all isFieldValueChar = true) :
    ((contentLengthCheck hdrs = .error ⟨400, "Invalid content length provided."⟩) ↔
      ¬ nonNegIntLiteral v)
    ∧ (nonNegIntLiteral v → contentLengthCheck hdrs = .ok (some (pyInt v)))
    ∧ ∀ (s : ByteStream) (n : Nat) (b : List Byte) (s2 : ByteStream),
        readBody s n = some (b, s2) → b = s.data.take n := by
  refine ⟨?_, ?_, ?_⟩
  · unfold contentLengthCheck
    rw [hget]
    cases hn : pyIsnumericAscii v with
    | false =>
      simp only [hn, Bool.not_false, if_true]
      constructor
      · intro _
        rw [← isnumeric_iff_literal, hn]
        simp
      · intro _
        trivial
    | true =>
      simp only [hn, Bool.not_true, if_false]
      constructor
      · intro h
        exact Except.noConfusion h
      · intro h
        exact absurd ((isnumeric_iff_literal v).mp hn) h
  · intro h
    unfold contentLengthCheck
    rw [hget]
    have hn : pyIsnumericAscii v = true := (isnumeric_iff_literal v).mpr h
    simp [hn]
  · intro s n b s2 h
    unfold readBody at h
    split_ifs at h with h1 h2 h3
    · simp only [Option.some.injEq, Prod.mk.injEq] at h
      rw [← h.1, h1]
      simp
    · simp only [Option.some.injEq, Prod.mk.injEq] at h
      rw [← h.1, List.isEmpty_iff.mp h2]
      simp
    · simp only [Option.some.injEq, Prod.mk.injEq] at h
      exact h.1.symm

/-- C6 witness: value `17` passes with body length 17; value `1 7` (a
printable header value that is not an integer literal) raises the 400. -/
theorem c6_content_length_witness :
    contentLengthCheck [(pyEncode "content-length", pyEncode "17")] = .ok (some 17) ∧
    contentLengthCheck [(pyEncode "content-length", pyEncode "1 7")] =
      .error ⟨400, "Invalid content length provided."⟩ := by
  constructor
  · exact (c6_content_length [(pyEncode "content-length", pyEncode "17")] (pyEncode "17")
      (by decide) (by decide)).2.1 (by decide)
  · exact (c6_content_length [(pyEncode "content-length", pyEncode "1 7")] (pyEncode "1 7")
      (by decide) (by decide)).1.mpr (by decide)

/-- **C1 counterexample**: the claim predicts that an absent `connection`
header yields keep-alive and that a second well-formed request on the same
socket is then processed; in the code an absent header means
`headers.get(b"connection") == b"keep-alive"` is `False`, the loop breaks
after the first exchange, and the second request is never dispatched. -/
theorem c1_counterexample :
    keepaliveDecision [] = false
    ∧ (runConnection echoHandler ("", 0) 3
        ⟨pyEncode "GET /a HTTP/1.1\r\n\r\nGET /b HTTP/1.1\r\n\r\n", false⟩ false).map
        (fun tr => tr.dispatched.map fun r => r.declaration.uri) =
      some [some (pyEncode "/a")] := by
  exact ⟨by decide, by decide⟩

/-- **C1 amended**: the close-vs-keep-alive decision is: keep-alive iff the
stored `connection` header value is exactly `keep-alive`; any other value —
including `close` and including the header being absent — closes the
connection after the exchange. A second well-formed request on the same
socket is processed without reconnecting when the first request carried
`connection: keep-alive`. -/
theorem c1_keepalive_amended :
    (∀ headers : List (List Byte × List Byte),
      keepaliveDecision headers = true ↔
        dictGet headers (pyEncode "connection") = some (pyEncode "keep-alive"))
    ∧ (∀ headers : List (List Byte × List Byte),
        dictGet headers (pyEncode "connection") = some (pyEncode "close") →
        keepaliveDecision headers = false)
    ∧ (runConnection echoHandler ("", 0) 3
        ⟨pyEncode
          "GET /a HTTP/1.1\r\nConnection: keep-alive\r\n\r\nGET /b HTTP/1.1\r\n\r\n",
          false⟩ false).map
        (fun tr => (tr.dispatched.map fun r => r.declaration.uri, tr.torndown)) =
      some ([some (pyEncode "/a"), some (pyEncode "/b")], true) := by
  refine ⟨?_, ?_, by decide⟩
  · intro headers
    unfold keepaliveDecision
    exact decide_eq_true_iff
  · intro headers h
    unfold keepaliveDecision
    rw [h]
    decide

/-- **C2 counterexample**: on the peer-reset exit path the teardown step is
skipped: the `except ConnectionResetError` handler returns before the
`write_stream.close()` / `wait_closed()` lines, so the handler returns with
the stream not torn down, against the claim that teardown runs on every
exit path. -/
theorem c2_counterexample :
    runConnection echoHandler ("", 0) 1 ⟨[], true⟩ true = some ⟨[], [], false⟩ := by
  decide

/-- **C2 amended**: the teardown step runs on the normal-close and
protocol-error exit paths — every run of the connection handler without a
reset event that returns reports the stream torn down — but not on the
peer-reset path. -/
theorem c2_teardown_amended (handler : Request → Option Response) (source : String × Nat)
    (fuel : Nat) (s : ByteStream) (tr : ConnTrace)
    (h : runConnection handler source fuel s false = some tr) :
    tr.torndown = true := by
  unfold runConnection at h
  rw [if_neg (by simp)] at h
  cases hcl : connectionLoop handler source fuel s [] [] with
  | normalExit w d =>
    simp only [hcl] at h
    rw [← Option.some.inj h]
    rfl
  | httpErr e w d =>
    simp only [hcl] at h
    rw [← Option.some.inj h]
    rfl
  | stalled =>
    simp only [hcl] at h
    exact Option.noConfusion h
  | outOfFuel =>
    simp only [hcl] at h
    exact Option.noConfusion h

/-- C2 witness: a silent EOF close tears the stream down. -/
theorem c2_teardown_amended_witness :
    ∃ tr : ConnTrace, runConnection echoHandler ("", 0) 1 ⟨[], true⟩ false = some tr ∧
      tr.torndown = true :=
  ⟨⟨[], [], true⟩, by decide,
    c2_teardown_amended echoHandler ("", 0) 1 ⟨[], true⟩ ⟨[], [], true⟩ (by decide)⟩

/-- **C4 counterexample**: the stored value does not have trailing
whitespace stripped when that whitespace is made of spaces: the header line
`a: b ` stores the value `b ` (trailing space retained), because the greedy
printable value class of the pattern consumes the spaces before the
trailing `\s*` can. -/
theorem c4_counterexample :
    Request.consume
        { Request.new ("", 0) with
          declaration := ⟨some (pyEncode "GET"), some (pyEncode "/"), some (pyEncode "1.1")⟩ }
        (pyEncode "a: b \r\n") =
      .ok { Request.new ("", 0) with
            declaration := ⟨some (pyEncode "GET"), some (pyEncode "/"), some (pyEncode "1.1")⟩,
            headers := [(pyEncode "a", pyEncode "b ")] }
    ∧ pyEncode "b " ≠ pyEncode "b" := by
  exact ⟨by decide, by decide⟩

/-- **C4 amended**: after the declaration is set, a header line stores
`headers[lowercase(name)] = value`, where the value has leading whitespace
stripped and trailing whitespace stripped only when it is not printable
(tab, LF, VT, FF, CR): trailing spaces are retained as part of the greedy
printable value run. Two names differing only in case fold to the same
stored key, and the later assignment wins. -/
theorem c4_header_storage_amended :
    (∀ (req : Request) (n w1 v w2 : List Byte),
      req.declaration.method.isSome = true →
      n ≠ [] → n.all isTokenChar = true →
      w1.all isSpaceByte = true →
      v.all isFieldValueChar = true →
      v.head? ≠ some 32 →
      w2.all (fun b => isSpaceByte b && !isFieldValueChar b) = true →
      req.consume ((n ++ 58 :: (w1 ++ (v ++ w2))) ++ [13, 10]) =
        .ok { req with headers := dictSet req.headers (bytesLower n) v })
    ∧ ∀ (d : List (List Byte × List Byte)) (n1 n2 v1 v2 : List Byte),
        bytesLower n1 = bytesLower n2 →
        dictGet (dictSet (dictSet d (bytesLower n1) v1) (bytesLower n2) v2)
          (bytesLower n1) = some v2 := by
  constructor
  · intro req n w1 v w2 hd hn1 hn2 hw1 hv hvh hw2
    have hmatch := matchHeaderLine_wf hn1 hn2 hw1 hv hvh hw2
    obtain ⟨mv, hm⟩ := Option.isSome_iff_exists.mp hd
    simp only [Request.consume, take_crlf, hm, hmatch]
  · intro d n1 n2 v1 v2 h
    rw [h, dictGet_dictSet_self]

/-- C4 amended witness: `A: b \t` (leading space, trailing space then tab)
stores key `a`, value `b `; a later `a`-keyed assignment overwrites it. -/
theorem c4_header_storage_amended_witness :
    Request.consume
        { Request.new ("", 0) with
          declaration := ⟨some (pyEncode "GET"), some (pyEncode "/"), some (pyEncode "1.1")⟩ }
        (pyEncode "A: b \t\r\n") =
      .ok { Request.new ("", 0) with
            declaration := ⟨some (pyEncode "GET"), some (pyEncode "/"), some (pyEncode "1.1")⟩,
            headers := dictSet [] (bytesLower (pyEncode "A")) (pyEncode "b ") }
    ∧ dictGet (dictSet (dictSet [] (bytesLower (pyEncode "A")) (pyEncode "b "))
        (bytesLower (pyEncode "a")) (pyEncode "c")) (bytesLower (pyEncode "A")) =
      some (pyEncode "c") := by
  constructor
  · have h := c4_header_storage_amended.1
      { Request.new ("", 0) with
        declaration := ⟨some (pyEncode "GET"), some (pyEncode "/"), some (pyEncode "1.1")⟩ }
      (pyEncode "A") [32] (pyEncode "b ") [9]
      (by decide) (by decide) (by decide) (by decide) (by decide) (by decide) (by decide)
    rw [show pyEncode "A: b \t\r\n" =
        (pyEncode "A" ++ 58 :: ([32] ++ (pyEncode "b " ++ [9]))) ++ [13, 10] from by decide]
    exact h
  · exact c4_header_storage_amended.2 [] (pyEncode "A") (pyEncode "a") (pyEncode "b ")
      (pyEncode "c") (by decide)

/-- **C8 counterexample**: the membership test on line 152 of ghost.py is
`uri.netloc not in sys.argv`, and `sys.argv` includes the program name at
index 0: when no domains are passed (argv = `["ghost.py"]`), a beacon body
whose URL host equals the program name is recorded — a row is inserted into
the hits table although the host is not among the domains passed to the
process. -/
theorem c8_counterexample :
    "ghost.py" ∉ (["ghost.py"] : List String).drop 1
    ∧ Ghost.on_request (fun _ => true) [] [] ["ghost.py"] 5 ⟨[]⟩
        { Request.new ("", 0) with
          declaration := ⟨some (pyEncode "POST"), some (pyEncode "/hi"), some (pyEncode "1.1")⟩,
          body := pyEncode "http://ghost.py/a" } =
      some (⟨204, [], []⟩, ⟨[("ghost.py", "/a", 5)]⟩) := by
  exact ⟨by decide, by decide⟩

/-- **C8 amended**: for a request whose target matches neither routing
literal, if the body decodes as UTF-8, the URL's netloc is free of the
brackets that trigger `urlsplit`'s `ValueError` path (so the parse
completes in every CPython version and no exception escapes the handler),
and that host is not in `sys.argv` at all (neither a domain passed to the
process nor the program name), the handler returns the blank 204 response
with an empty body and the hits table is unchanged. -/
theorem c8_beacon_amended (bracketOk : List Char → Bool) (indexHtml statsBody : List Byte)
    (argv : List String) (now : Nat) (db : GhostDB) (req : Request) (chars : List Char)
    (h1 : req.declaration.uri ≠ some (pyEncode "/"))
    (h2 : req.declaration.uri ≠ some (pyEncode "/stats"))
    (hdec : utf8Decode req.body = some chars)
    (hnb1 : (urlsplitNetlocRaw chars).contains '[' = false)
    (hnb2 : (urlsplitNetlocRaw chars).contains ']' = false)
    (hdom : String.mk (urlsplitNetlocRaw chars) ∉ argv) :
    Ghost.on_request bracketOk indexHtml statsBody argv now db req =
      some (BLANK_RESPONSE, db)
    ∧ BLANK_RESPONSE.status_code = 204 ∧ BLANK_RESPONSE.body = [] := by
  refine ⟨?_, rfl, rfl⟩
  have hval : urlparseNetloc bracketOk chars = some (urlsplitNetlocRaw chars) := by
    unfold urlparseNetloc checkNetlocBrackets
    rw [hnb1, hnb2]
    simp
  simp only [Ghost.on_request, pyEqBytesStr, Bool.false_eq_true, if_false, hdec, hval]
  rw [if_pos hdom]

/-- C8 amended witness: `POST /hi` with body `http://ex.com/a/b` and domain
list `["example.com"]` yields the blank 204 and no insert. -/
theorem c8_beacon_amended_witness :
    Ghost.on_request (fun _ => true) [] [] ["prog", "example.com"] 0 ⟨[]⟩
        { Request.new ("", 0) with
          declaration := ⟨some (pyEncode "POST"), some (pyEncode "/hi"), some (pyEncode "1.1")⟩,
          body := pyEncode "http://ex.com/a/b" } =
      some (BLANK_RESPONSE, ⟨[]⟩) :=
  (c8_beacon_amended (fun _ => true) [] [] ["prog", "example.com"] 0 ⟨[]⟩
    { Request.new ("", 0) with
      declaration := ⟨some (pyEncode "POST"), some (pyEncode "/hi"), some (pyEncode "1.1")⟩,
      body := pyEncode "http://ex.com/a/b" }
    "http://ex.com/a/b".toList (by decide) (by decide) (by decide) (by decide) (by decide)
    (by decide)).1

/-- **C3 counterexample**: the three forced headers are merged by exact
dict key, so a handler entry whose key differs only in case is not
overwritten and survives serialization: with handler headers
`{"Content-Length": "999"}` and empty body, the wire output carries both a
`content-length: 999` line (the handler's value, lowercased at dump time)
and the forced `content-length: 0` line. -/
theorem c3_counterexample :
    pyEncode "content-length: 999" ∈
      Shadow.responseParts (respWithConnection ⟨200, [], [("Content-Length", "999")]⟩ true)
    ∧ pyEncode "content-length: 0" ∈
      Shadow.responseParts (respWithConnection ⟨200, [], [("Content-Length", "999")]⟩ true) := by
  exact ⟨by decide, by decide⟩

theorem mergedHeaders_after_connection (r : Response) (ka : Bool) :
    Shadow.mergedHeaders (respWithConnection r ka) =
      dictSet (dictSet (dictSet r.headers "connection"
        (if ka then "keep-alive" else "close"))
        "content-length" (toString r.body.length)) "server" shadowVersion := rfl

theorem headerLine_mem_parts {r : Response} {k v : String}
    (hg : dictGet (Shadow.mergedHeaders r) k = some v) (hlk : strLower k = k) :
    pyEncode (k ++ ": " ++ v) ∈ Shadow.responseParts r := by
  have hmem := mem_of_dictGet hg
  have hmap : Shadow.headerLine (k, v) ∈ (Shadow.mergedHeaders r).map Shadow.headerLine :=
    List.mem_map_of_mem _ hmem
  have hl : Shadow.headerLine (k, v) = pyEncode (k ++ ": " ++ v) := by
    unfold Shadow.headerLine
    rw [hlk]
  rw [← hl]
  unfold Shadow.responseParts
  exact List.mem_append_left _ (List.mem_append_right _ hmap)

/-- **C3 amended**: for every handler response and keep-alive decision, the
serialized output always carries the three forced header lines —
`connection` holding the state machine's decision, `content-length` holding
the decimal body length, and `server` holding the fixed version token — and
in the merged header map the exact keys `connection`, `content-length`,
`server` hold exactly the forced values, so a handler entry under one of
these exact lowercase keys is overwritten. A handler entry under a
differently-cased key is not overwritten and is emitted as an additional
line of the same lowercased name (see the counterexample). -/
theorem c3_forced_headers_amended (r : Response) (ka : Bool) :
    dictGet (Shadow.mergedHeaders (respWithConnection r ka)) "connection" =
      some (if ka then "keep-alive" else "close")
    ∧ dictGet (Shadow.mergedHeaders (respWithConnection r ka)) "content-length" =
      some (toString r.body.length)
    ∧ dictGet (Shadow.mergedHeaders (respWithConnection r ka)) "server" = some shadowVersion
    ∧ pyEncode ("connection: " ++ (if ka then "keep-alive" else "close")) ∈
      Shadow.responseParts (respWithConnection r ka)
    ∧ pyEncode ("content-length: " ++ toString r.body.length) ∈
      Shadow.responseParts (respWithConnection r ka)
    ∧ pyEncode ("server: " ++ shadowVersion) ∈
      Shadow.responseParts (respWithConnection r ka) := by
  have g1 : dictGet (Shadow.mergedHeaders (respWithConnection r ka)) "connection" =
      some (if ka then "keep-alive" else "close") := by
    rw [mergedHeaders_after_connection, dictGet_dictSet_ne _ _ _ _ (by decide),
      dictGet_dictSet_ne _ _ _ _ (by decide), dictGet_dictSet_self]
  have g2 : dictGet (Shadow.mergedHeaders (respWithConnection r ka)) "content-length" =
      some (toString r.body.length) := by
    rw [mergedHeaders_after_connection, dictGet_dictSet_ne _ _ _ _ (by decide),
      dictGet_dictSet_self]
  have g3 : dictGet (Shadow.mergedHeaders (respWithConnection r ka)) "server" =
      some shadowVersion := by
    rw [mergedHeaders_after_connection, dictGet_dictSet_self]
  refine ⟨g1, g2, g3, ?_, ?_, ?_⟩
  · exact headerLine_mem_parts g1 (by decide)
  · exact headerLine_mem_parts g2 (by decide)
  · exact headerLine_mem_parts g3 (by decide)

theorem pyEncode_append (a b : String) : pyEncode (a ++ b) = pyEncode a ++ pyEncode b := by
  unfold pyEncode
  have h : (a ++ b).toList = a.toList ++ b.toList := by
    simp [String.toList]
  rw [h, List.map_append, List.flatten_append]

/-- No byte of the UTF-8 encoding of a non-uppercase-ASCII character is an
uppercase ASCII letter: a single-byte encoding is the code point itself,
and every byte of a multi-byte encoding is at least 0x80. -/
theorem not_upper_add (K e : Nat) (hK : 128 ≤ K) : ¬(65 ≤ K + e ∧ K + e ≤ 90) := by
  intro hcon
  omega

theorem utf8EncodeChar_no_upper {c : Char} (h : ¬(65 ≤ c.toNat ∧ c.toNat ≤ 90)) :
    ∀ b ∈ utf8EncodeChar c, ¬(65 ≤ b ∧ b ≤ 90) := by
  intro b hb
  unfold utf8EncodeChar at hb
  split_ifs at hb with h1 h2 h3
  · simp only [List.mem_singleton] at hb
    subst hb
    exact h
  · simp only [List.mem_cons, List.not_mem_nil, or_false] at hb
    rcases hb with rfl | rfl
    · exact not_upper_add 192 _ (by decide)
    · exact not_upper_add 128 _ (by decide)
  · simp only [List.mem_cons, List.not_mem_nil, or_false] at hb
    rcases hb with rfl | rfl | rfl
    · exact not_upper_add 224 _ (by decide)
    · exact not_upper_add 128 _ (by decide)
    · exact not_upper_add 128 _ (by decide)
  · simp only [List.mem_cons, List.not_mem_nil, or_false] at hb
    rcases hb with rfl | rfl | rfl | rfl
    · exact not_upper_add 240 _ (by decide)
    · exact not_upper_add 128 _ (by decide)
    · exact not_upper_add 128 _ (by decide)
    · exact not_upper_add 128 _ (by decide)

/-- `Char.toLower` never returns an uppercase ASCII letter. -/
theorem toLower_toNat_not_upper (c : Char) :
    ¬(65 ≤ (Char.toLower c).toNat ∧ (Char.toLower c).toNat ≤ 90) := by
  simp only [Char.toLower]
  by_cases h : c.toNat ≥ 65 ∧ c.toNat ≤ 90
  · rw [if_pos h]
    have hgen : ∀ n : Nat, 65 ≤ n → n ≤ 90 →
        ¬(65 ≤ (Char.ofNat (n + 32)).toNat ∧ (Char.ofNat (n + 32)).toNat ≤ 90) := by
      intro n hl hu
      interval_cases n <;> decide
    exact hgen c.toNat h.1 h.2
  · rw [if_neg h]
    exact h

/-- Every byte of the encoding of a lowercased string avoids the uppercase
ASCII range. -/
theorem pyEncode_strLower_no_upper (s : String) :
    ∀ b ∈ pyEncode (strLower s), ¬(65 ≤ b ∧ b ≤ 90) := by
  intro b hb
  unfold pyEncode strLower at hb
  simp only [String.toList, List.mem_flatten, List.mem_map] at hb
  obtain ⟨bytes, ⟨c, hc, rfl⟩, hbb⟩ := hb
  obtain ⟨c0, hc0, rfl⟩ := hc
  exact utf8EncodeChar_no_upper (toLower_toNat_not_upper c0) b hbb

theorem takeWhile_no_upper {p : Nat → Bool} {A B : List Nat} {x : Nat}
    (hA : ∀ b ∈ A, ¬(65 ≤ b ∧ b ≤ 90)) (hx : p x = false) :
    ∀ b ∈ (A ++ x :: B).takeWhile p, ¬(65 ≤ b ∧ b ≤ 90) := by
  induction A with
  | nil =>
    intro b hb
    simp only [List.nil_append, List.takeWhile_cons, hx] at hb
    exact absurd hb (List.not_mem_nil b)
  | cons a A ih =>
    intro b hb
    simp only [List.cons_append, List.takeWhile_cons] at hb
    by_cases hpa : p a
    · rw [if_pos hpa] at hb
      rcases List.mem_cons.mp hb with rfl | hb2
      · exact hA b (by simp)
      · exact ih (fun b2 hb2 => hA b2 (List.mem_cons_of_mem _ hb2)) b hb2
    · rw [if_neg hpa] at hb
      exact absurd hb (List.not_mem_nil b)

/-- **C10**: every header name emitted in a serialized response is
lowercased at serialization time — in every emitted header line, every byte
before the first colon avoids the uppercase ASCII range — even when the
handler supplied a mixed-case header name in its Response's header map. -/
theorem c10_lowercase_names (r : Response) (ka : Bool) (line : List Byte)
    (h : line ∈ (Shadow.mergedHeaders (respWithConnection r ka)).map Shadow.headerLine) :
    ∀ b ∈ line.takeWhile (fun b => b != 58), ¬(65 ≤ b ∧ b ≤ 90) := by
  obtain ⟨⟨k, v⟩, hkv, rfl⟩ := List.mem_map.mp h
  have hl : Shadow.headerLine (k, v) =
      pyEncode (strLower k) ++ 58 :: (32 :: pyEncode v) := by
    unfold Shadow.headerLine
    rw [pyEncode_append, pyEncode_append,
      show pyEncode ": " = [58, 32] from by decide]
    simp
  rw [hl]
  exact takeWhile_no_upper (pyEncode_strLower_no_upper k) (by decide)

/-- C10 witness: the handler header `X-Test: V` is emitted with the
lowercased name `x-test`; its name part contains the byte 120 (`x`), and by
the theorem no byte of that name part — this one included — is an uppercase
ASCII letter. -/
theorem c10_lowercase_names_witness :
    (120 : Nat) ∈ (Shadow.headerLine ("X-Test", "V")).takeWhile (fun b => b != 58)
    ∧ ¬(65 ≤ (120 : Nat) ∧ (120 : Nat) ≤ 90) :=
  ⟨by decide,
    c10_lowercase_names ⟨200, [], [("X-Test", "V")]⟩ false
      (Shadow.headerLine ("X-Test", "V")) (by decide) 120 (by decide)⟩

